import Mathlib

/-!
Verification of the BuzzDB Lab 1 flat-file storage engine
(`src/buzzdb_lab1.cpp`) against its natural-language specification.

The source file is a lab skeleton: the bodies of the core methods
(`loadFlatFile`, `loadMultipleFlatFilesInParallel`, `updatePostViews`,
`addEngagementRecord`, `getAllUserComments`, `getAllEngagementsByLocation`,
`updateUserName`, `safeParseInt`, `safeParseLongLong`, `atomicWriteCSV`,
`trim`, `parseCSVLine`, `loadSingleFile`, `rebuildIndexes`) are TODO
placeholders; only their declarations, contract comments and tests are
present.  Those operations are therefore modelled here from the
specification (each such definition carries a doc comment starting with
`Modelled from the spec:`).  The accessors (`getPostViews`, `hasUser`,
`hasPost`, `getUsername`, the count accessors) are implemented in the
source and are translated from it directly.

`std::map<int, T>` tables are embedded as association lists
`List (Int × T)`; C++ `int` / `long long` are embedded as `Int`
(no claim depends on fixed-width overflow).
-/

namespace BuzzDB

/-- User row of `users.csv`: `id`, `username`, `location`
(struct `User`, src lines 93-105). -/
structure User where
  id : Int
  username : String
  location : String
deriving DecidableEq, Repr

/-- Post row of `posts.csv`: `id`, `content`, `username`, `views`
(struct `Post`, src lines 110-120). -/
structure Post where
  id : Int
  content : String
  username : String
  views : Int
deriving DecidableEq, Repr

/-- Engagement row of `engagements.csv`: `id`, `postId`, `username`,
`type` (`"like"` or `"comment"`), `comment`, `timestamp`
(struct `Engagement`, src lines 127-141). -/
structure Engagement where
  id : Int
  postId : Int
  username : String
  type : String
  comment : String
  timestamp : Int
deriving DecidableEq, Repr

/-- A keyed table: the embedding of `std::map<int, T>` as an association
list from id to row. -/
abbrev Table (α : Type) : Type := List (Int × α)

/-- Insert-or-replace into a keyed table: the embedding of
`local_map[id] = value` on a `std::map`. -/
def Table.upsert {α : Type} (t : Table α) (k : Int) (v : α) : Table α :=
  if t.any (fun kv => kv.1 == k) then
    t.map (fun kv => if kv.1 = k then (k, v) else kv)
  else
    t ++ [(k, v)]

/-- The in-memory state of the `FlatFile` storage engine: the three primary
tables plus the `username_to_id` secondary index (src lines 170-183).
File paths and mutexes carry no claim-relevant state and are not modelled;
locking is reflected by modelling each locked operation as one atomic
transition. -/
structure FlatFile where
  users : Table User
  posts : Table Post
  engagements : Table Engagement
  username_to_id : List (String × Int)
deriving DecidableEq, Repr

/-- Accumulating decimal-digit parser: consumes the whole character list,
failing on the first non-digit (no partial parses). -/
def parseDigitsAcc : Nat → List Char → Option Nat
  | acc, [] => some acc
  | acc, c :: cs =>
    if c.isDigit then parseDigitsAcc (10 * acc + (c.toNat - 48)) cs else none

/-- Modelled from the spec: `FlatFile::safeParseInt` (src lines 268-284) is a
TODO placeholder; the spec requires the parse to succeed exactly on "a
syntactically complete integer (no partial parses — the entire field must be
consumed)".  Operational parser on the character list: optional sign, then
digits consuming the entire input. -/
def FlatFile.safeParseIntChars : List Char → Option Int
  | [] => none
  | c :: cs =>
    if c = '-' then
      if cs.isEmpty then none
      else (parseDigitsAcc 0 cs).map (fun n => -(n : Int))
    else if c = '+' then
      if cs.isEmpty then none
      else (parseDigitsAcc 0 cs).map (fun n => (n : Int))
    else if c.isDigit then
      (parseDigitsAcc (c.toNat - 48) cs).map (fun n => (n : Int))
    else none

/-- Modelled from the spec: `FlatFile::safeParseInt` — see
`FlatFile.safeParseIntChars`. -/
def FlatFile.safeParseInt (s : String) : Option Int :=
  FlatFile.safeParseIntChars s.data

/-- Modelled from the spec: `FlatFile::safeParseLongLong` (src lines 289-295)
is a TODO placeholder; the spec gives it the same "syntactically complete
integer" contract as `safeParseInt` (64-bit fields), and widths do not matter
over unbounded `Int`. -/
def FlatFile.safeParseLongLong (s : String) : Option Int :=
  FlatFile.safeParseIntChars s.data

/-- Declarative characterisation (the spec side of claim C8): a string is a
syntactically complete integer when it is an optional sign followed by one or
more decimal digits and nothing else. -/
def isCompleteIntChars : List Char → Bool
  | [] => false
  | c :: cs =>
    if c = '-' ∨ c = '+' then !cs.isEmpty && cs.all Char.isDigit
    else (c :: cs).all Char.isDigit

/-- Declarative characterisation of complete integers on strings. -/
def isCompleteInt (s : String) : Bool :=
  isCompleteIntChars s.data

/-- Value of a digit string, most significant digit first. -/
def digitsVal (cs : List Char) : Nat :=
  cs.foldl (fun n c => 10 * n + (c.toNat - 48)) 0

/-- Declarative value of a syntactically complete integer character list. -/
def completeIntValueChars : List Char → Int
  | [] => 0
  | c :: cs =>
    if c = '-' then -(digitsVal cs : Int)
    else if c = '+' then (digitsVal cs : Int)
    else (digitsVal (c :: cs) : Int)

/-- Declarative value of a syntactically complete integer string. -/
def completeIntValue (s : String) : Int :=
  completeIntValueChars s.data

/-- Whitespace characters trimmed from field boundaries
(`" \t\r\n"` in the source's hint). -/
def isSpaceChar (c : Char) : Bool :=
  c == ' ' || c == '\t' || c == '\r' || c == '\n'

/-- Modelled from the spec: `FlatFile::trim` (src lines 218-229) is a TODO
placeholder; the spec requires trimming surrounding whitespace from each
field. -/
def FlatFile.trim (s : String) : String :=
  String.mk (((s.data.dropWhile isSpaceChar).reverse.dropWhile isSpaceChar).reverse)

/-- Modelled from the spec: `FlatFile::parseCSVLine` (src lines 242-256) is a
TODO placeholder; the spec splits on the comma delimiter and trims each cell
(no quoting or escaping of embedded delimiters). -/
def FlatFile.parseCSVLine (line : String) : List String :=
  (line.split (fun c => c == ',')).map FlatFile.trim

/-- Modelled from the spec: one `users.csv` row — schema `id, username,
location`, strict column count, strict numeric id. -/
def parseUserRow (cells : List String) : Option (Int × User) :=
  match cells with
  | [a, b, c] =>
      (FlatFile.safeParseInt a).map (fun i => (i, { id := i, username := b, location := c }))
  | _ => none

/-- Modelled from the spec: one `posts.csv` row — schema `id, content,
username, views`. -/
def parsePostRow (cells : List String) : Option (Int × Post) :=
  match cells with
  | [a, b, c, d] =>
      match FlatFile.safeParseInt a, FlatFile.safeParseInt d with
      | some i, some v => some (i, { id := i, content := b, username := c, views := v })
      | _, _ => none
  | _ => none

/-- Modelled from the spec: one `engagements.csv` row — schema `id, postId,
username, type, comment, timestamp`. -/
def parseEngagementRow (cells : List String) : Option (Int × Engagement) :=
  match cells with
  | [a, b, c, d, e, f] =>
      match FlatFile.safeParseInt a, FlatFile.safeParseInt b, FlatFile.safeParseLongLong f with
      | some i, some pid, some ts =>
          some (i, { id := i, postId := pid, username := c, type := d, comment := e,
                     timestamp := ts })
      | _, _, _ => none
  | _ => none

/-- Modelled from the spec: the shared per-file row loop of
`FlatFile::loadSingleFile` — skip the header line, skip blank lines, parse
each remaining line, silently drop malformed rows, insert well-formed rows
into the given table. -/
def loadRows {α : Type} (parse : List String → Option (Int × α)) (lines : List String)
    (t0 : Table α) : Table α :=
  ((lines.drop 1).filter (fun l => !(FlatFile.trim l == ""))).foldl
    (fun t l =>
      match parse (FlatFile.parseCSVLine l) with
      | some kv => t.upsert kv.1 kv.2
      | none => t)
    t0

/-- The contents of the three input CSV files, line by line (file I/O is
external; the loader consumes the lines). -/
structure FileSet where
  userLines : List String
  postLines : List String
  engagementLines : List String
deriving DecidableEq, Repr

/-- Modelled from the spec: `FlatFile::loadSingleFile` (src lines 306-340) is
a TODO placeholder; type 0 loads users, 1 loads posts, 2 loads engagements,
each into the caller-supplied (possibly thread-local) tables. -/
def FlatFile.loadSingleFile (fs : FileSet) (ty : Nat) (lu : Table User) (lp : Table Post)
    (le : Table Engagement) : Table User × Table Post × Table Engagement :=
  if ty = 0 then (loadRows parseUserRow fs.userLines lu, lp, le)
  else if ty = 1 then (lu, loadRows parsePostRow fs.postLines lp, le)
  else (lu, lp, loadRows parseEngagementRow fs.engagementLines le)

/-- Modelled from the spec: `FlatFile::rebuildIndexes` (src lines 379-392) is
a TODO placeholder; rebuilds the `username_to_id` secondary index from the
users table. -/
def FlatFile.rebuildIndexes (db : FlatFile) : FlatFile :=
  { db with username_to_id := db.users.map (fun kv => (kv.2.username, kv.1)) }

/-- An integrity violation reported by the referential-integrity validator:
the offending row and the missing reference. -/
inductive Violation where
  | danglingAuthor (postId : Int)
  | danglingEngagementPost (engagementId : Int)
  | danglingEngagementUser (engagementId : Int)
deriving DecidableEq, Repr

/-- Modelled from the spec: the Referential Integrity Validator — every
post's author and every engagement's post and author must reference an
existing row; violations are collected into a list read directly from the
primary tables. -/
def FlatFile.validateIntegrity (db : FlatFile) : List Violation :=
  db.posts.filterMap (fun kv =>
      if db.users.any (fun u => u.2.username == kv.2.username) then none
      else some (Violation.danglingAuthor kv.1))
    ++ db.engagements.filterMap (fun kv =>
      if db.posts.any (fun p => p.1 == kv.2.postId) then none
      else some (Violation.danglingEngagementPost kv.1))
    ++ db.engagements.filterMap (fun kv =>
      if db.users.any (fun u => u.2.username == kv.2.username) then none
      else some (Violation.danglingEngagementUser kv.1))

/-- Modelled from the spec: `FlatFile::loadFlatFile` (src lines 447-460) is a
TODO placeholder; the sequential load clears the tables, loads users, posts
and engagements in that fixed order directly into the shared tables, then
rebuilds the indexes. -/
def FlatFile.loadFlatFile (db : FlatFile) (fs : FileSet) : FlatFile :=
  let s0 := FlatFile.loadSingleFile fs 0 [] [] []
  let s1 := FlatFile.loadSingleFile fs 1 s0.1 s0.2.1 s0.2.2
  let s2 := FlatFile.loadSingleFile fs 2 s1.1 s1.2.1 s1.2.2
  FlatFile.rebuildIndexes { db with users := s2.1, posts := s2.2.1, engagements := s2.2.2 }

/-- Modelled from the spec: `FlatFile::loadMultipleFlatFilesInParallel`
(src lines 485-498) is a TODO placeholder; one task per file parses into a
private local table with no shared state, then the locals are merged into
the shared tables under the fixed lock order, integrity is validated over
the merged state (reported, the data stays exposed), and indexes are
rebuilt.  The parse phase touches no shared state, so its result is
schedule-independent and the merge is modelled directly. -/
def FlatFile.loadMultipleFlatFilesInParallel (db : FlatFile) (fs : FileSet) :
    FlatFile × List Violation :=
  let tu := FlatFile.loadSingleFile fs 0 [] [] []
  let tp := FlatFile.loadSingleFile fs 1 [] [] []
  let te := FlatFile.loadSingleFile fs 2 [] [] []
  let merged := FlatFile.rebuildIndexes
    { db with users := tu.1, posts := tp.2.1, engagements := te.2.2 }
  (merged, merged.validateIntegrity)

/-- Modelled from the spec: `FlatFile::updatePostViews` (src lines 511-531)
is a TODO placeholder; under the posts lock it verifies the id exists, adds
the delta to the stored view count, persists, and commits — atomic as one
transition because the lock is held throughout.  Returns `false` and changes
nothing when the id is absent. -/
def FlatFile.updatePostViews (db : FlatFile) (post_id views_count : Int) : Bool × FlatFile :=
  if (db.posts.lookup post_id).isSome then
    (true,
      { db with
        posts := db.posts.map (fun kv =>
          if kv.1 = post_id then (kv.1, { kv.2 with views := kv.2.views + views_count })
          else kv) })
  else (false, db)

/-- A linearized history of `updatePostViews` calls: each list element is one
atomic `(post_id, delta)` update, applied in order. -/
def FlatFile.applyViewUpdates (db : FlatFile) (ops : List (Int × Int)) : FlatFile :=
  ops.foldl (fun d op => (d.updatePostViews op.1 op.2).2) db

/-- Result of `addEngagementRecord`: the assigned id, or a dangling-reference
validation error. -/
inductive AddResult where
  | ok (assignedId : Int)
  | danglingPost
  | danglingUser
deriving DecidableEq, Repr

/-- Next unused engagement id (monotonic): one past the largest id in use. -/
def FlatFile.nextEngagementId (db : FlatFile) : Int :=
  (db.engagements.foldl (fun m kv => max m kv.1) 0) + 1

/-- Modelled from the spec: `FlatFile::addEngagementRecord` (src lines
543-558) is a TODO placeholder; validates that `postId` and `username`
reference existing rows (rejecting with `danglingPost` / `danglingUser`
without mutating any state), assigns the next unused id, appends the row,
persists, and updates the indexes. -/
def FlatFile.addEngagementRecord (db : FlatFile) (record : Engagement) :
    AddResult × FlatFile :=
  if !(db.posts.lookup record.postId).isSome then (AddResult.danglingPost, db)
  else if !(db.users.any (fun kv => kv.2.username == record.username)) then
    (AddResult.danglingUser, db)
  else
    let newId := db.nextEngagementId
    (AddResult.ok newId,
      FlatFile.rebuildIndexes
        { db with engagements := db.engagements ++ [(newId, { record with id := newId })] })

/-- Ordering on the result pairs of `getAllUserComments`: post id ascending,
then comment text lexicographically ascending. -/
def pairLE (a b : Int × String) : Prop :=
  a.1 < b.1 ∨ (a.1 = b.1 ∧ a.2 ≤ b.2)

instance : DecidableRel pairLE := fun a b => by
  unfold pairLE; infer_instance

instance : IsTotal (Int × String) pairLE := by
  constructor
  intro a b
  rcases lt_trichotomy a.1 b.1 with h | h | h
  · exact Or.inl (Or.inl h)
  · rcases le_total a.2 b.2 with h2 | h2
    · exact Or.inl (Or.inr ⟨h, h2⟩)
    · exact Or.inr (Or.inr ⟨h.symm, h2⟩)
  · exact Or.inr (Or.inl h)

instance : IsTrans (Int × String) pairLE := by
  constructor
  intro a b c hab hbc
  rcases hab with h1 | ⟨h1, h1s⟩
  · rcases hbc with h2 | ⟨h2, _⟩
    · exact Or.inl (h1.trans h2)
    · exact Or.inl (h2 ▸ h1)
  · rcases hbc with h2 | ⟨h2, h2s⟩
    · exact Or.inl (h1 ▸ h2)
    · exact Or.inr ⟨h1.trans h2, h1s.trans h2s⟩

/-- The unsorted `(postId, comment)` pairs of a user's comment engagements:
engagements whose `username` matches the user and whose `type` is
`"comment"`. -/
def FlatFile.userCommentPairs (db : FlatFile) (u : User) : List (Int × String) :=
  db.engagements.filterMap (fun kv =>
    if kv.2.username = u.username ∧ kv.2.type = "comment" then
      some (kv.2.postId, kv.2.comment)
    else none)

/-- Modelled from the spec: `FlatFile::getAllUserComments` (src lines
566-584) is a TODO placeholder; resolves the user by id, filters comment
engagements by username, and returns the `(postId, comment)` pairs sorted by
post id then comment text.  Empty result, not an error, when the user does
not exist. -/
def FlatFile.getAllUserComments (db : FlatFile) (user_id : Int) : List (Int × String) :=
  match db.users.lookup user_id with
  | none => []
  | some u => (db.userCommentPairs u).insertionSort pairLE

/-- Usernames of all users whose `location` equals the argument exactly. -/
def locationUsernamesList (users : Table User) (location : String) : List String :=
  users.filterMap (fun kv =>
    if kv.2.location = location then some kv.2.username else none)

/-- Modelled from the spec: `FlatFile::getAllEngagementsByLocation` (src
lines 592-606) is a TODO placeholder; resolves the users in the location and
sums their engagement counts by type, `(likes, comments)`, returning `(0, 0)`
when no user matches. -/
def FlatFile.getAllEngagementsByLocation (db : FlatFile) (location : String) : Int × Int :=
  let names := locationUsernamesList db.users location
  ((db.engagements.countP
      (fun kv => names.contains kv.2.username && kv.2.type == "like") : Int),
   (db.engagements.countP
      (fun kv => names.contains kv.2.username && kv.2.type == "comment") : Int))

/-- Declarative count (the spec side of claim C7): the number of engagements
of the given type made by some user whose location matches exactly. -/
def engagementCountByLocation (db : FlatFile) (location ty : String) : Nat :=
  db.engagements.countP (fun kv =>
    decide (∃ ukv ∈ db.users, ukv.2.location = location ∧ ukv.2.username = kv.2.username)
      && kv.2.type == ty)

/-- Modelled from the spec: `FlatFile::updateUserName` (src lines 620-637) is
a TODO placeholder; when the user id exists, renames the user row and
propagates the new username to every post and engagement row carrying the
old username, persists all three files, and rebuilds the indexes; returns
`false` and changes nothing when the id is absent. -/
def FlatFile.updateUserName (db : FlatFile) (user_id : Int) (new_username : String) :
    Bool × FlatFile :=
  match db.users.lookup user_id with
  | none => (false, db)
  | some u =>
    (true,
      FlatFile.rebuildIndexes
        { db with
          users := db.users.map (fun kv =>
            if kv.1 = user_id then (kv.1, { kv.2 with username := new_username }) else kv),
          posts := db.posts.map (fun kv =>
            if kv.2.username = u.username then (kv.1, { kv.2 with username := new_username })
            else kv),
          engagements := db.engagements.map (fun kv =>
            if kv.2.username = u.username then (kv.1, { kv.2 with username := new_username })
            else kv) })

/-- Source accessor `FlatFile::getPostViews` (src lines 654-657, implemented
in the source): the post's stored view count, or `-1` when the id is
absent. -/
def FlatFile.getPostViews (db : FlatFile) (post_id : Int) : Int :=
  match db.posts.lookup post_id with
  | some p => p.views
  | none => -1

/-- Source accessor `FlatFile::getUsername` (src lines 660-663): the user's
username, or the empty string when absent. -/
def FlatFile.getUsername (db : FlatFile) (user_id : Int) : String :=
  match db.users.lookup user_id with
  | some u => u.username
  | none => ""

/-- Source accessor `FlatFile::getEngagementCount` (src line 645). -/
def FlatFile.getEngagementCount (db : FlatFile) : Nat :=
  db.engagements.length

/-- An abstract file system for the Durable Writer model: an association
list from path to full file contents. -/
abbrev FileSys : Type := List (String × String)

/-- Write (create or fully replace) a file. -/
def fsWrite (fs : FileSys) (p c : String) : FileSys :=
  if fs.any (fun kv => kv.1 == p) then
    fs.map (fun kv => if kv.1 = p then (p, c) else kv)
  else fs ++ [(p, c)]

/-- Remove a file. -/
def fsRemove (fs : FileSys) (p : String) : FileSys :=
  fs.filter (fun kv => !(kv.1 == p))

/-- Read a file's contents, `none` when absent. -/
def fsRead (fs : FileSys) (p : String) : Option String :=
  fs.lookup p

/-- Outcome oracle for one durable write: the temp-file write fails, the
atomic rename fails, or both steps succeed. -/
inductive WriteOutcome where
  | writeFail
  | renameFail
  | ok
deriving DecidableEq, Repr

/-- Full serialized contents of a CSV file: header line then data lines. -/
def csvContent (header : String) (lines : List String) : String :=
  lines.foldl (fun acc l => acc ++ l ++ "\n") (header ++ "\n")

/-- Modelled from the spec: `FlatFile::atomicWriteCSV` (src lines 355-373) is
a TODO placeholder; the Durable Writer writes the full contents to the
temporary path `path ++ ".tmp"`, then atomically renames it onto `path`.
On a failure before the rename the target is untouched and the temporary
file is removed; on a rename failure the target is untouched (rename is
assumed atomic, never partially applied). -/
def FlatFile.atomicWriteCSV (outcome : WriteOutcome) (fs : FileSys) (path header : String)
    (lines : List String) : Bool × FileSys :=
  let tmp := path ++ ".tmp"
  let content := csvContent header lines
  match outcome with
  | WriteOutcome.writeFail => (false, fsRemove fs tmp)
  | WriteOutcome.renameFail => (false, fsWrite fs tmp content)
  | WriteOutcome.ok => (true, fsRemove (fsWrite (fsWrite fs tmp content) path content) tmp)

/-- Example users table mirroring the repository's test fixture
(`users.csv`: alice and eve in Atlanta, bob in Boston, diana in Denver). -/
def exUsers : Table User :=
  [(1, { id := 1, username := "alice", location := "Atlanta" }),
   (2, { id := 2, username := "bob", location := "Boston" }),
   (4, { id := 4, username := "diana", location := "Denver" }),
   (5, { id := 5, username := "eve", location := "Atlanta" })]

/-- Example posts table (post 1 starts at 0 views). -/
def exPosts : Table Post :=
  [(1, { id := 1, content := "hello from tech", username := "alice", views := 0 }),
   (2, { id := 2, content := "go jackets", username := "bob", views := 3 }),
   (4, { id := 4, content := "atlanta spring", username := "diana", views := 7 })]

/-- Example engagements table: one like each by alice and eve, two comments
by bob (on posts 4 and 2). -/
def exEngagements : Table Engagement :=
  [(1, { id := 1, postId := 2, username := "alice", type := "like", comment := "",
         timestamp := 100 }),
   (2, { id := 2, postId := 4, username := "eve", type := "like", comment := "",
         timestamp := 101 }),
   (3, { id := 3, postId := 4, username := "bob", type := "comment",
         comment := "I love Atlanta too", timestamp := 102 }),
   (4, { id := 4, postId := 2, username := "bob", type := "comment", comment := "nice!",
         timestamp := 103 })]

/-- Example storage-engine state used by the concrete witnesses. -/
def exDb : FlatFile :=
  { users := exUsers, posts := exPosts, engagements := exEngagements, username_to_id := [] }

/-- Example file-system state with an existing target file. -/
def exFs : FileSys :=
  [("posts.csv", "id,content,username,views\n1,old,alice,0\n")]

/-- Example candidate engagement whose `postId` references no existing
post. -/
def exBadEngagement : Engagement :=
  { id := 0, postId := 999, username := "eve", type := "like", comment := "",
    timestamp := 1706500000 }

theorem parseDigitsAcc_eq (cs : List Char) :
    ∀ acc : Nat, parseDigitsAcc acc cs =
      if cs.all Char.isDigit then some (cs.foldl (fun n c => 10 * n + (c.toNat - 48)) acc)
      else none := by
  induction cs with
  | nil => intro acc; simp [parseDigitsAcc]
  | cons c cs ih =>
    intro acc
    by_cases h : c.isDigit
    · simp [parseDigitsAcc, h, ih]
    · simp [parseDigitsAcc, h]

theorem safeParseIntChars_eq (cs : List Char) :
    FlatFile.safeParseIntChars cs =
      if isCompleteIntChars cs then some (completeIntValueChars cs) else none := by
  cases cs with
  | nil => rfl
  | cons c cs =>
    by_cases hm : c = '-'
    · subst hm
      by_cases he : cs.isEmpty
      · simp [FlatFile.safeParseIntChars, isCompleteIntChars, he]
      · by_cases hd : cs.all Char.isDigit
        · simp [FlatFile.safeParseIntChars, isCompleteIntChars, he, hd, parseDigitsAcc_eq,
            completeIntValueChars, digitsVal]
        · simp [FlatFile.safeParseIntChars, isCompleteIntChars, he, hd, parseDigitsAcc_eq]
    · by_cases hp : c = '+'
      · subst hp
        by_cases he : cs.isEmpty
        · simp [FlatFile.safeParseIntChars, isCompleteIntChars, he]
        · by_cases hd : cs.all Char.isDigit
          · simp [FlatFile.safeParseIntChars, isCompleteIntChars, he, hd, parseDigitsAcc_eq,
              completeIntValueChars, digitsVal]
          · simp [FlatFile.safeParseIntChars, isCompleteIntChars, he, hd, parseDigitsAcc_eq]
      · by_cases hd : c.isDigit
        · by_cases hds : cs.all Char.isDigit
          · simp only [FlatFile.safeParseIntChars, isCompleteIntChars, hm, hp, hd, hds,
              parseDigitsAcc_eq, completeIntValueChars, digitsVal, if_true, if_false,
              List.all_cons, Bool.and_true, Option.map_some, List.foldl_cons]
            norm_num
          · simp [FlatFile.safeParseIntChars, isCompleteIntChars, hm, hp, hd, hds,
              parseDigitsAcc_eq]
        · simp [FlatFile.safeParseIntChars, isCompleteIntChars, hm, hp, hd]

/-- C8: the numeric-field parser (`safeParseInt`, and `safeParseLongLong` for
64-bit fields) succeeds with the parsed value exactly on syntactically
complete integers (the entire field consumed) and fails on every other
string — no partial parses. -/
theorem safeParse_complete_spec (s : String) :
    (isCompleteInt s = true → FlatFile.safeParseInt s = some (completeIntValue s))
    ∧ (isCompleteInt s = false → FlatFile.safeParseInt s = none)
    ∧ FlatFile.safeParseLongLong s = FlatFile.safeParseInt s := by
  refine ⟨?_, ?_, rfl⟩
  · intro h
    rw [isCompleteInt] at h
    rw [FlatFile.safeParseInt, safeParseIntChars_eq, completeIntValue, h]
    rfl
  · intro h
    rw [isCompleteInt] at h
    rw [FlatFile.safeParseInt, safeParseIntChars_eq, h]
    rfl

/-- Witness for C8: the parser accepts the complete integer `-123` with its
value and rejects the partially numeric string `12x`. -/
theorem safeParse_complete_spec_witness :
    (isCompleteInt ("-123") = true
      ∧ FlatFile.safeParseInt ("-123") = some (completeIntValue ("-123")))
    ∧ (isCompleteInt ("12x") = false ∧ FlatFile.safeParseInt ("12x") = none) :=
  ⟨⟨by decide, (safeParse_complete_spec ("-123")).1 (by decide)⟩,
   ⟨by decide, (safeParse_complete_spec ("12x")).2.1 (by decide)⟩⟩

theorem lookup_map_update {α : Type} (t : Table α) (k : Int) (f : α → α) :
    List.lookup k (t.map (fun kv => if kv.1 = k then (kv.1, f kv.2) else kv))
      = (List.lookup k t).map f := by
  induction t with
  | nil => rfl
  | cons hd tl ih =>
    obtain ⟨k1, v⟩ := hd
    by_cases h : k1 = k
    · subst h
      simp [List.lookup_cons]
    · have hb : (k == k1) = false := beq_eq_false_iff_ne.mpr (Ne.symm h)
      simp [List.lookup_cons, h, hb, ih]

theorem lookup_map_update_views (t : Table Post) (k delta : Int) :
    List.lookup k (t.map (fun kv =>
        if kv.1 = k then (kv.1, { kv.2 with views := kv.2.views + delta }) else kv))
      = (List.lookup k t).map (fun v => { v with views := v.views + delta }) := by
  simpa using lookup_map_update t k (fun v => { v with views := v.views + delta })

theorem lookup_map_update_username (t : Table User) (k : Int) (nm : String) :
    List.lookup k (t.map (fun kv =>
        if kv.1 = k then (kv.1, { kv.2 with username := nm }) else kv))
      = (List.lookup k t).map (fun v => { v with username := nm }) := by
  simpa using lookup_map_update t k (fun v => { v with username := nm })

theorem lookup_updatePostViews (db : FlatFile) (pid delta : Int) (p : Post)
    (hp : db.posts.lookup pid = some p) :
    (db.updatePostViews pid delta).2.posts.lookup pid
      = some { p with views := p.views + delta } := by
  have hs : (db.posts.lookup pid).isSome := by simp [hp]
  simp only [FlatFile.updatePostViews, hs, if_true]
  rw [lookup_map_update_views, hp]
  rfl

/-- C10: `getPostViews` returns the stored view count for a present post id
and the sentinel `-1` for an absent post id (so a stored count of `-1` is
indistinguishable from absence at this accessor). -/
theorem getPostViews_spec (db : FlatFile) (post_id : Int) :
    (∀ p, db.posts.lookup post_id = some p → db.getPostViews post_id = p.views)
    ∧ (db.posts.lookup post_id = none → db.getPostViews post_id = -1) := by
  constructor
  · intro p hp
    simp [FlatFile.getPostViews, hp]
  · intro hp
    simp [FlatFile.getPostViews, hp]

/-- Witness for C10: post 2 stores 3 views; post 999 is absent and reads as
`-1`. -/
theorem getPostViews_spec_witness :
    exDb.getPostViews 2 = (3 : Int) ∧ exDb.getPostViews 999 = -1 :=
  ⟨(getPostViews_spec exDb 2).1
      { id := 2, content := "go jackets", username := "bob", views := 3 } (by decide),
   (getPostViews_spec exDb 999).2 (by decide)⟩

/-- C2: for a present post id, `updatePostViews` returns `true` and the
stored view count becomes the previous value plus the delta; for an absent
post id it returns `false` and changes nothing. -/
theorem updatePostViews_spec (db : FlatFile) (post_id delta : Int) :
    (∀ p, db.posts.lookup post_id = some p →
        (db.updatePostViews post_id delta).1 = true
        ∧ (db.updatePostViews post_id delta).2.posts.lookup post_id
            = some { p with views := p.views + delta })
    ∧ (db.posts.lookup post_id = none →
        (db.updatePostViews post_id delta).1 = false
        ∧ (db.updatePostViews post_id delta).2 = db) := by
  constructor
  · intro p hp
    have hs : (db.posts.lookup post_id).isSome := by simp [hp]
    exact ⟨by simp [FlatFile.updatePostViews, hs], lookup_updatePostViews db post_id delta p hp⟩
  · intro hp
    have hs : (db.posts.lookup post_id).isSome = false := by simp [hp]
    constructor <;> simp [FlatFile.updatePostViews, hs]

/-- Witness for C2: adding 50 views to post 1 (stored at 0) succeeds and
stores 50; updating absent post 999 fails and leaves the state unchanged. -/
theorem updatePostViews_spec_witness :
    (exDb.updatePostViews 1 50).1 = true
    ∧ (exDb.updatePostViews 1 50).2.posts.lookup 1
        = some { id := 1, content := "hello from tech", username := "alice", views := 50 }
    ∧ (exDb.updatePostViews 999 10).1 = false
    ∧ (exDb.updatePostViews 999 10).2 = exDb := by
  have h1 := (updatePostViews_spec exDb 1 50).1
    { id := 1, content := "hello from tech", username := "alice", views := 0 } (by decide)
  have h2 := (updatePostViews_spec exDb 999 10).2 (by decide)
  exact ⟨h1.1, h1.2, h2.1, h2.2⟩

theorem applyViewUpdates_all_ones (pid : Int) :
    ∀ (ops : List (Int × Int)) (db : FlatFile) (i : Int) (c u : String) (v : Int),
      db.posts.lookup pid = some { id := i, content := c, username := u, views := v } →
      (∀ op ∈ ops, op = (pid, 1)) →
      (db.applyViewUpdates ops).posts.lookup pid
        = some { id := i, content := c, username := u, views := v + (ops.length : Int) } := by
  intro ops
  induction ops with
  | nil =>
    intro db i c u v hp _
    simp [FlatFile.applyViewUpdates, hp]
  | cons op rest ih =>
    intro db i c u v hp hall
    have hop : op = (pid, 1) := hall op (List.mem_cons_self op rest)
    subst hop
    have hstep : ((db.updatePostViews pid 1).2).posts.lookup pid
        = some { id := i, content := c, username := u, views := v + 1 } :=
      lookup_updatePostViews db pid 1 { id := i, content := c, username := u, views := v } hp
    have h2 := ih ((db.updatePostViews pid 1).2) i c u (v + 1) hstep
      (fun o hm => hall o (List.mem_cons_of_mem _ hm))
    simp only [FlatFile.applyViewUpdates, List.foldl_cons] at h2 ⊢
    rw [h2]
    simp only [List.length_cons, Option.some.injEq, Post.mk.injEq, true_and]
    omega

/-- C3: any linearized history of `N * M` atomic `updatePostViews` increments
of size 1 on one post (the interleaving of N concurrent callers each issuing
M increments, each call atomic because the posts lock is held throughout)
leaves the post's view count at its initial value plus `N * M` — no lost
updates. -/
theorem concurrentIncrements_spec (N M : Nat) (pid : Int) (db : FlatFile) (p : Post)
    (ops : List (Int × Int)) (hp : db.posts.lookup pid = some p)
    (hlen : ops.length = N * M) (hall : ∀ op ∈ ops, op = (pid, 1)) :
    (db.applyViewUpdates ops).posts.lookup pid
      = some { p with views := p.views + ((N * M : Nat) : Int) } := by
  obtain ⟨i, c, u, v⟩ := p
  have h := applyViewUpdates_all_ones pid ops db i c u v hp hall
  rw [hlen] at h
  exact h

/-- Witness for C3: 10 callers times 10 increments of 1 on post 1, starting
from 0 views, yield exactly 100 views. -/
theorem concurrentIncrements_spec_witness :
    (exDb.applyViewUpdates (List.replicate 100 ((1 : Int), (1 : Int)))).posts.lookup 1
      = some { id := 1, content := "hello from tech", username := "alice",
               views := (100 : Int) } :=
  concurrentIncrements_spec 10 10 1 exDb
    { id := 1, content := "hello from tech", username := "alice", views := 0 }
    (List.replicate 100 ((1 : Int), (1 : Int))) (by decide) (by decide) (by decide)

/-- C4: for a present user id, `updateUserName` succeeds, the user's row and
every post and engagement row that carried the old username now carry the
new username, and the three row counts are unchanged; for an absent user id
it fails and changes nothing. -/
theorem updateUserName_spec (db : FlatFile) (user_id : Int) (new_username : String) :
    (∀ u, db.users.lookup user_id = some u →
        (db.updateUserName user_id new_username).1 = true
        ∧ (db.updateUserName user_id new_username).2.users.lookup user_id
            = some { u with username := new_username }
        ∧ (∀ kv ∈ db.posts, kv.2.username = u.username →
            (kv.1, { kv.2 with username := new_username })
              ∈ (db.updateUserName user_id new_username).2.posts)
        ∧ (∀ kv ∈ db.engagements, kv.2.username = u.username →
            (kv.1, { kv.2 with username := new_username })
              ∈ (db.updateUserName user_id new_username).2.engagements)
        ∧ (db.updateUserName user_id new_username).2.users.length = db.users.length
        ∧ (db.updateUserName user_id new_username).2.posts.length = db.posts.length
        ∧ (db.updateUserName user_id new_username).2.engagements.length
            = db.engagements.length)
    ∧ (db.users.lookup user_id = none →
        (db.updateUserName user_id new_username).1 = false
        ∧ (db.updateUserName user_id new_username).2 = db) := by
  constructor
  · intro u hu
    simp only [FlatFile.updateUserName, hu, FlatFile.rebuildIndexes]
    refine ⟨trivial, ?_, ?_, ?_, by simp, by simp, by simp⟩
    · rw [lookup_map_update_username, hu]
      rfl
    · intro kv hkv hname
      exact List.mem_map.mpr ⟨kv, hkv, by simp [hname]⟩
    · intro kv hkv hname
      exact List.mem_map.mpr ⟨kv, hkv, by simp [hname]⟩
  · intro hu
    constructor <;> simp [FlatFile.updateUserName, hu]

/-- Witness for C4: renaming user 1 from alice to alice_new succeeds, updates
the user row and alice's post, and keeps the user count. -/
theorem updateUserName_spec_witness :
    (exDb.updateUserName 1 ("alice_new")).1 = true
    ∧ (exDb.updateUserName 1 ("alice_new")).2.users.lookup 1
        = some { id := 1, username := "alice_new", location := "Atlanta" }
    ∧ ((1 : Int), ({ id := 1, content := "hello from tech", username := "alice_new", views := 0 } : Post)) ∈ (exDb.updateUserName 1 ("alice_new")).2.posts
    ∧ (exDb.updateUserName 1 ("alice_new")).2.users.length = exDb.users.length := by
  have h := (updateUserName_spec exDb 1 ("alice_new")).1
    { id := 1, username := "alice", location := "Atlanta" } (by decide)
  exact ⟨h.1, h.2.1,
    h.2.2.1 (1, { id := 1, content := "hello from tech", username := "alice", views := 0 })
      (by decide) (by decide),
    h.2.2.2.2.1⟩

/-- C5: a candidate engagement whose `postId` is absent from posts or whose
`username` is absent from users is rejected with a dangling-reference error
and the whole state (in particular the engagement table) is unchanged. -/
theorem addEngagementRecord_reject_spec (db : FlatFile) (record : Engagement)
    (h : db.posts.lookup record.postId = none
       ∨ ∀ kv ∈ db.users, kv.2.username ≠ record.username) :
    ((db.addEngagementRecord record).1 = AddResult.danglingPost
      ∨ (db.addEngagementRecord record).1 = AddResult.danglingUser)
    ∧ (db.addEngagementRecord record).2 = db := by
  rcases h with h | h
  · constructor
    · exact Or.inl (by simp [FlatFile.addEngagementRecord, h])
    · simp [FlatFile.addEngagementRecord, h]
  · have hu : db.users.any (fun kv => kv.2.username == record.username) = false := by
      rw [List.any_eq_false]
      intro kv hkv
      simp only [beq_iff_eq]
      exact h kv hkv
    cases hsome : db.posts.lookup record.postId with
    | none =>
      constructor
      · exact Or.inl (by simp [FlatFile.addEngagementRecord, hsome])
      · simp [FlatFile.addEngagementRecord, hsome]
    | some p =>
      constructor
      · exact Or.inr (by simp [FlatFile.addEngagementRecord, hsome, hu])
      · simp [FlatFile.addEngagementRecord, hsome, hu]

/-- Witness for C5: an engagement referencing absent post 999 is rejected
and the state is unchanged. -/
theorem addEngagementRecord_reject_spec_witness :
    ((exDb.addEngagementRecord exBadEngagement).1 = AddResult.danglingPost
      ∨ (exDb.addEngagementRecord exBadEngagement).1 = AddResult.danglingUser)
    ∧ (exDb.addEngagementRecord exBadEngagement).2 = exDb :=
  addEngagementRecord_reject_spec exDb exBadEngagement (Or.inl (by decide))

/-- C6: `getAllUserComments` returns exactly the `(postId, comment)` pairs of
the user's comment engagements, sorted by post id ascending then comment
text lexicographically ascending, and the empty sequence (not an error) for
an absent user (hence also for a user with no comments, whose pair list is
empty). -/
theorem getAllUserComments_spec (db : FlatFile) (user_id : Int) :
    (db.users.lookup user_id = none → db.getAllUserComments user_id = [])
    ∧ (∀ u, db.users.lookup user_id = some u →
        (db.getAllUserComments user_id).Perm (db.userCommentPairs u)
        ∧ List.Sorted pairLE (db.getAllUserComments user_id)) := by
  constructor
  · intro h
    simp [FlatFile.getAllUserComments, h]
  · intro u hu
    simp only [FlatFile.getAllUserComments, hu]
    exact ⟨List.perm_insertionSort pairLE _, List.sorted_insertionSort pairLE _⟩

/-- Witness for C6: bob's comments on posts 4 and 2 come back as the sorted
list given in the specification's example. -/
theorem getAllUserComments_spec_witness :
    (exDb.getAllUserComments 2).Perm
      (exDb.userCommentPairs { id := 2, username := "bob", location := "Boston" })
    ∧ List.Sorted pairLE (exDb.getAllUserComments 2)
    ∧ exDb.getAllUserComments 2 = [(2, "nice!"), (4, "I love Atlanta too")] := by
  have h := (getAllUserComments_spec exDb 2).2
    { id := 2, username := "bob", location := "Boston" } (by decide)
  exact ⟨h.1, h.2, by decide⟩

theorem mem_locationUsernamesList (users : Table User) (location x : String) :
    x ∈ locationUsernamesList users location
      ↔ ∃ ukv ∈ users, ukv.2.location = location ∧ ukv.2.username = x := by
  rw [locationUsernamesList, List.mem_filterMap]
  constructor
  · rintro ⟨a, ha, hf⟩
    by_cases hc : a.2.location = location
    · simp only [hc, if_true, Option.some.injEq] at hf
      exact ⟨a, ha, hc, hf⟩
    · simp [hc] at hf
  · rintro ⟨a, ha, hc, hx⟩
    exact ⟨a, ha, by simp [hc, hx]⟩

theorem contains_locationUsernamesList (users : Table User) (location x : String) :
    (locationUsernamesList users location).contains x
      = decide (∃ ukv ∈ users, ukv.2.location = location ∧ ukv.2.username = x) := by
  rw [Bool.eq_iff_iff]
  simp [mem_locationUsernamesList]

/-- C7: `getAllEngagementsByLocation` returns the pair of total like and
comment counts made by the set of users whose location equals the argument
exactly, and `(0, 0)` — not an error — when no user's location matches. -/
theorem getAllEngagementsByLocation_spec (db : FlatFile) (location : String) :
    db.getAllEngagementsByLocation location
      = ((engagementCountByLocation db location ("like") : Int),
         (engagementCountByLocation db location ("comment") : Int))
    ∧ ((∀ kv ∈ db.users, kv.2.location ≠ location) →
        db.getAllEngagementsByLocation location = (0, 0)) := by
  constructor
  · simp only [FlatFile.getAllEngagementsByLocation, engagementCountByLocation,
      Prod.mk.injEq]
    constructor <;>
      exact congrArg Int.ofNat (List.countP_congr (fun kv _ => by
        rw [contains_locationUsernamesList]))
  · intro h
    have hnil : locationUsernamesList db.users location = [] :=
      List.filterMap_eq_nil_iff.mpr (fun kv hkv => by simp [h kv hkv])
    simp [FlatFile.getAllEngagementsByLocation, hnil]

/-- Witness for C7: the two Atlanta users (alice, eve) have one like each and
no comments, so Atlanta aggregates to `(2, 0)`; an unknown location yields
`(0, 0)`. -/
theorem getAllEngagementsByLocation_spec_witness :
    exDb.getAllEngagementsByLocation ("Atlanta")
      = ((engagementCountByLocation exDb ("Atlanta") ("like") : Int),
         (engagementCountByLocation exDb ("Atlanta") ("comment") : Int))
    ∧ exDb.getAllEngagementsByLocation ("Atlanta") = (2, 0)
    ∧ exDb.getAllEngagementsByLocation ("Nowhere") = (0, 0) :=
  ⟨(getAllEngagementsByLocation_spec exDb ("Atlanta")).1, by decide,
   (getAllEngagementsByLocation_spec exDb ("Nowhere")).2 (by decide)⟩

theorem lookup_map_setkey_ne (fs : FileSys) (p q c : String) (h : p ≠ q) :
    List.lookup p (fs.map (fun kv => if kv.1 = q then (q, c) else kv))
      = List.lookup p fs := by
  induction fs with
  | nil => rfl
  | cons kv t ih =>
    obtain ⟨k, v⟩ := kv
    by_cases hk : k = q
    · subst hk
      have hb : (p == k) = false := beq_eq_false_iff_ne.mpr h
      simp [List.lookup_cons, hb, ih]
    · cases hpk : (p == k) <;> simp [List.lookup_cons, hk, hpk, ih]

theorem fsRead_fsWrite_ne (fs : FileSys) (p q c : String) (h : p ≠ q) :
    fsRead (fsWrite fs q c) p = fsRead fs p := by
  rw [fsRead, fsWrite]
  by_cases ha : fs.any (fun kv => kv.1 == q)
  · simp only [ha, if_true]
    exact lookup_map_setkey_ne fs p q c h
  · simp only [ha, if_false, Bool.false_eq_true]
    rw [List.lookup_append]
    have : List.lookup p [(q, c)] = none := by
      simp [List.lookup_cons, beq_eq_false_iff_ne.mpr h]
    rw [this, Option.or_none]
    rfl

theorem fsRead_fsRemove_ne (fs : FileSys) (p q : String) (h : p ≠ q) :
    fsRead (fsRemove fs q) p = fsRead fs p := by
  simp only [fsRead, fsRemove]
  induction fs with
  | nil => rfl
  | cons kv t ih =>
    obtain ⟨k, v⟩ := kv
    by_cases hk : k = q
    · subst hk
      simp [List.filter_cons, List.lookup_cons, beq_eq_false_iff_ne.mpr h, ih]
    · cases hpk : (p == k) <;>
        simp [List.filter_cons, List.lookup_cons, hk, hpk, ih]

theorem fsRead_fsRemove_self (fs : FileSys) (p : String) :
    fsRead (fsRemove fs p) p = none := by
  rw [fsRead, fsRemove]
  induction fs with
  | nil => rfl
  | cons kv t ih =>
    obtain ⟨k, v⟩ := kv
    by_cases hk : k = p
    · subst hk
      simp [ih]
    · have hb : (p == k) = false := beq_eq_false_iff_ne.mpr (Ne.symm hk)
      simp [List.lookup_cons, hk, hb, ih]

theorem path_ne_tmp (path : String) : path ≠ path ++ (".tmp") := by
  intro h
  have hl := congrArg String.length h
  rw [String.length_append] at hl
  have h4 : (".tmp").length = 4 := rfl
  omega

/-- C9: whenever the durable writer fails before the atomic replace, the
target file's contents are unchanged and the temporary file is removed;
whenever it fails during the replace it reports failure and the target is
still unchanged — the target is never left partially written. -/
theorem atomicWriteCSV_fail_spec (outcome : WriteOutcome) (fs : FileSys)
    (path header : String) (lines : List String) :
    ((FlatFile.atomicWriteCSV outcome fs path header lines).1 = false →
        fsRead (FlatFile.atomicWriteCSV outcome fs path header lines).2 path
          = fsRead fs path)
    ∧ (outcome = WriteOutcome.writeFail →
        fsRead (FlatFile.atomicWriteCSV outcome fs path header lines).2 (path ++ (".tmp"))
          = none) := by
  constructor
  · intro hfail
    cases outcome with
    | writeFail =>
      exact fsRead_fsRemove_ne fs path (path ++ (".tmp")) (path_ne_tmp path)
    | renameFail =>
      exact fsRead_fsWrite_ne fs path (path ++ (".tmp")) _ (path_ne_tmp path)
    | ok => simp [FlatFile.atomicWriteCSV] at hfail
  · intro h
    subst h
    exact fsRead_fsRemove_self fs (path ++ (".tmp"))

/-- Witness for C9: a rename failure leaves the existing `posts.csv` content
readable unchanged; a write failure leaves no temporary file behind. -/
theorem atomicWriteCSV_fail_spec_witness :
    fsRead (FlatFile.atomicWriteCSV WriteOutcome.renameFail exFs ("posts.csv")
        ("id,content,username,views") []).2 ("posts.csv") = fsRead exFs ("posts.csv")
    ∧ fsRead (FlatFile.atomicWriteCSV WriteOutcome.writeFail exFs ("posts.csv")
        ("id,content,username,views") []).2 ("posts.csv" ++ (".tmp")) = none :=
  ⟨(atomicWriteCSV_fail_spec WriteOutcome.renameFail exFs ("posts.csv")
      ("id,content,username,views") []).1 (by decide),
   (atomicWriteCSV_fail_spec WriteOutcome.writeFail exFs ("posts.csv")
      ("id,content,username,views") []).2 rfl⟩

/-- C1: sequential load and concurrent load of the same input file set into
any two instances produce identical user, post and engagement table contents
(stated order-independently as permutations, here in fact equal) and
identical counts. -/
theorem loadEquivalence_spec (db1 db2 : FlatFile) (fs : FileSet) :
    ((db1.loadFlatFile fs).users.Perm (db2.loadMultipleFlatFilesInParallel fs).1.users
      ∧ (db1.loadFlatFile fs).posts.Perm (db2.loadMultipleFlatFilesInParallel fs).1.posts
      ∧ (db1.loadFlatFile fs).engagements.Perm
          (db2.loadMultipleFlatFilesInParallel fs).1.engagements)
    ∧ (db1.loadFlatFile fs).users.length
        = (db2.loadMultipleFlatFilesInParallel fs).1.users.length
    ∧ (db1.loadFlatFile fs).posts.length
        = (db2.loadMultipleFlatFilesInParallel fs).1.posts.length
    ∧ (db1.loadFlatFile fs).engagements.length
        = (db2.loadMultipleFlatFilesInParallel fs).1.engagements.length := by
  have hu : (db1.loadFlatFile fs).users = (db2.loadMultipleFlatFilesInParallel fs).1.users := by
    simp [FlatFile.loadFlatFile, FlatFile.loadMultipleFlatFilesInParallel,
      FlatFile.loadSingleFile, FlatFile.rebuildIndexes]
  have hp : (db1.loadFlatFile fs).posts = (db2.loadMultipleFlatFilesInParallel fs).1.posts := by
    simp [FlatFile.loadFlatFile, FlatFile.loadMultipleFlatFilesInParallel,
      FlatFile.loadSingleFile, FlatFile.rebuildIndexes]
  have he : (db1.loadFlatFile fs).engagements
      = (db2.loadMultipleFlatFilesInParallel fs).1.engagements := by
    simp [FlatFile.loadFlatFile, FlatFile.loadMultipleFlatFilesInParallel,
      FlatFile.loadSingleFile, FlatFile.rebuildIndexes]
  exact ⟨⟨hu ▸ List.Perm.refl _, hp ▸ List.Perm.refl _, he ▸ List.Perm.refl _⟩,
    by rw [hu], by rw [hp], by rw [he]⟩

end BuzzDB
